import Mathlib

/-!
Verification development for the sticker-man arena fighting game.

The authoritative game server (server.js, embedded in WEAPON_SYSTEM.md) owns
rooms, players, dropped items, combat resolution and win detection.  A second
combat path lives in src/utils/gameLogic.ts (the GameLogic class used by
src/app/api/socket/route.ts).  Both are embedded below as executable Lean
definitions: JS position numbers become integers (exact here, see Pos),
speed multipliers become rationals, ms timestamps and health points become
naturals (health is produced only by max(0, h - d) and min(maxHealth,
h + heal), which Nat subtraction and min/max mirror exactly), and JS objects
become insertion-ordered association lists.
setTimeout closures (consumable speed-boost resets, attack-animation clears,
room auto-start) are modelled as deferred events re-entering the serialized
event loop, as the concurrency model of the system prescribes.
-/

namespace StickerMan

/-- Position / velocity record.  JS position numbers are embedded as
integers: every coordinate constant in the code is an integer, every
coordinate operation the handlers perform (sums, differences, products,
halving of the even config widths, quartering of the canvas width) stays
within the integers, and the claims' coordinate predicates are
order-theoretic, so the integer embedding is exact for them. -/
structure Pos where
  x : ℤ
  y : ℤ
deriving DecidableEq, Repr

/-- Facing direction enum ('left' | 'right'). -/
inductive Dir
  | left
  | right
deriving DecidableEq, Repr

/-- Game state enum ('waiting' | 'ready' | 'in_progress' | 'finished'). -/
inductive GameState
  | waiting
  | ready
  | inProgress
  | finished
deriving DecidableEq, Repr

/- GAME_CONFIG of server.js.  Physics-only constants (gravity, jumpForce,
moveSpeed) are not consulted by any server handler and are omitted. -/
namespace GAME_CONFIG

def canvasWidth : ℤ := 800
def canvasHeight : ℤ := 600
def playerWidth : ℤ := 40
def playerHeight : ℤ := 60
def attackRange : ℕ := 60
def attackDamage : ℕ := 10
def attackCooldown : ℕ := 500

end GAME_CONFIG

/-- DroppedItem.properties.  In the source every field is optional; a JS
truthiness test (`if (x)` / `x || d`) treats both `undefined` and `0` as
absent, so absent fields are encoded as `0` here, which gives exactly the
same branching. -/
structure ItemProps where
  attack : ℕ
  defense : ℕ
  heal : ℕ
  speedBoost : ℚ
  duration : ℕ
deriving DecidableEq, Repr

/-- Weapon-specific metadata carried by a dropped item; only `range` is read
by the server (again with a truthiness test, so 0 encodes absent). -/
structure WeaponMeta where
  range : ℕ
deriving DecidableEq, Repr

/-- A dropped world item ('weapon' | 'shield' | 'consumable' in `type`;
the server compares `type` against string literals, so it stays a string). -/
structure Item where
  id : String
  type : String
  name : String
  position : Pos
  properties : ItemProps
  weaponInfo : Option WeaponMeta
deriving DecidableEq, Repr

/-- Player record of server.js (display-only `color` omitted). -/
structure Player where
  id : String
  name : String
  position : Pos
  velocity : Pos
  health : ℕ
  maxHealth : ℕ
  isAttacking : Bool
  isJumping : Bool
  isGrounded : Bool
  facingDirection : Dir
  isAlive : Bool
  attackCooldown : ℕ
  lastAttackTime : ℕ
  equippedWeapon : Option Item
  equippedShield : Option Item
  attackDamage : ℕ
  attackRange : ℕ
  defense : ℕ
  moveSpeedMultiplier : ℚ
deriving DecidableEq, Repr

/-- Insertion-ordered association list lookup (JS `obj[k]`, `none` = undefined). -/
def lookupA {α : Type} (k : String) : List (String × α) → Option α
  | [] => none
  | (k', v) :: rest => if k' = k then some v else lookupA k rest

/-- JS property assignment `obj[k] = v`: overwrite in place if the key exists,
append otherwise (JS objects keep first-insertion order for string keys). -/
def setA {α : Type} (k : String) (v : α) : List (String × α) → List (String × α)
  | [] => [(k, v)]
  | (k', v') :: rest => if k' = k then (k, v) :: rest else (k', v') :: setA k v rest

/-- JS `delete obj[k]`: remove the (unique) binding of `k`, keeping order. -/
def eraseA {α : Type} (k : String) : List (String × α) → List (String × α)
  | [] => []
  | (k', v') :: rest => if k' = k then rest else (k', v') :: eraseA k rest

/-- A game room of server.js.  `pendingSpeedResets` records the deferred
`setTimeout` closures scheduled by consumable speed boosts as (deadline,
playerId) pairs drained by the event loop; `createdAt` / `gameStartTime`
are timestamps never read by any handler and are omitted. -/
structure Room where
  id : String
  players : List (String × Player)
  gameState : GameState
  maxPlayers : ℕ
  currentPlayers : ℕ
  droppedItems : List (String × Item)
  winner : Option String
  pendingSpeedResets : List (ℕ × String)
deriving DecidableEq, Repr

/-- Outbound socket broadcasts relevant to the claims (payloads that no claim
inspects, such as the room snapshot in `gameUpdate`, are dropped). -/
inductive Out
  | playerHealthChanged (playerId : String) (health : ℕ)
  | playerAttacked (playerId : String) (targetId : Option String)
  | gameEnded (winner : String)
  | itemEquipped (playerId : String) (item : Item)
  | itemPickedUp (playerId : String) (itemId : String)
  | itemDroppedEv (item : Item)
  | playerMoved (playerId : String)
  | playerJoined (playerId : String)
  | playerLeft (playerId : String)
  | playerDisconnected (playerId : String)
  | gameStateChanged (s : GameState)
  | gameStarted
  | roomFull
  | gameUpdate
deriving DecidableEq, Repr

/-- createPlayer of server.js: spawn position by player index (first joiner
at canvasWidth*0.25, second at canvasWidth*0.75, y near ground), full health,
default combat stats. -/
def createPlayer (socketId nm : String) (playerIndex : ℕ) : Player :=
  { id := socketId
    name := nm
    position := { x := if playerIndex = 0 then GAME_CONFIG.canvasWidth / 4
                       else GAME_CONFIG.canvasWidth * 3 / 4
                  y := GAME_CONFIG.canvasHeight - 80 }
    velocity := { x := 0, y := 0 }
    health := 100
    maxHealth := 100
    isAttacking := false
    isJumping := false
    isGrounded := true
    facingDirection := if playerIndex = 0 then Dir.right else Dir.left
    isAlive := true
    attackCooldown := 0
    lastAttackTime := 0
    equippedWeapon := none
    equippedShield := none
    attackDamage := GAME_CONFIG.attackDamage
    attackRange := GAME_CONFIG.attackRange
    defense := 0
    moveSpeedMultiplier := 1 }

/-- checkAttackHit of server.js: horizontal distance within the attacker's
current attackRange (JS `attacker.attackRange || GAME_CONFIG.attackRange`)
and vertical distance within the character height.  No facing-direction,
isAttacking or liveness test appears in this function. -/
def checkAttackHit (attacker target : Player) : Bool :=
  let distance := |attacker.position.x - target.position.x|
  let verticalDistance := |attacker.position.y - target.position.y|
  let range : ℤ := if attacker.attackRange = 0 then (GAME_CONFIG.attackRange : ℤ)
                   else (attacker.attackRange : ℤ)
  distance ≤ range && verticalDistance ≤ GAME_CONFIG.playerHeight

/-- applyDamage of server.js: newHealth = max(0, health - damage) (Nat
subtraction is exactly this), alive recomputed as newHealth > 0. -/
def applyDamage (player : Player) (damage : ℕ) : Player :=
  let newHealth := player.health - damage
  { player with health := newHealth, isAlive := decide (0 < newHealth) }

/-- checkGameEnd of server.js: with zero alive players the winner is the
'draw' sentinel, with exactly one it is that player's id, otherwise null. -/
def checkGameEnd (players : List (String × Player)) : Option String :=
  match (players.map Prod.snd).filter (fun p => p.isAlive) with
  | [] => some "draw"
  | [p] => some p.id
  | _ => none

/-- Squared Euclidean distance.  The source compares
`Math.sqrt(dx*dx + dy*dy) <= r`; by monotonicity of the square root on
nonnegative reals this is exactly `dx*dx + dy*dy ≤ r*r`, which keeps the
predicate inside ℚ. -/
def distSq (p q : Pos) : ℤ :=
  (p.x - q.x) * (p.x - q.x) + (p.y - q.y) * (p.y - q.y)

/-- The hit-resolution loop of the playerAttack handler: walk the
Object.entries snapshot; every other alive player hit by the attacker takes
max(1, (attacker.attackDamage || 10) - (defense || 0)) damage via applyDamage
and a 20px horizontal knockback away from the attacker (the spread copy in
applyDamage shares the position object, so the knockback written through the
stale loop variable lands on the stored damaged player), a playerHealthChanged
broadcast fires with the post-damage health, and targetHit ends as the last
player hit. -/
def effectiveDamage (attacker target : Player) : ℕ :=
  max 1 ((if attacker.attackDamage = 0 then GAME_CONFIG.attackDamage
          else attacker.attackDamage) - target.defense)

/-- The 20px horizontal knockback away from the attacker
(`player.position.x += direction * 20`). -/
def knockbackX (attacker target : Player) : ℤ :=
  target.position.x + (if attacker.position.x < target.position.x then (1 : ℤ) else -1) * 20

/-- Net effect of one resolved hit on the stored target: damage via
applyDamage, then the knockback (written through the stale loop variable, it
reaches the stored player because the applyDamage spread shares the nested
position object). -/
def hitTransform (attacker target : Player) : Player :=
  let damaged := applyDamage target (effectiveDamage attacker target)
  { damaged with position := { damaged.position with x := knockbackX attacker target } }

def resolveAttack (attackerId : String) (attacker : Player) :
    List (String × Player) → List (String × Player) × List Out × Option String
  | [] => ([], [], none)
  | (pid, p) :: rest =>
    if pid ≠ attackerId ∧ p.isAlive ∧ checkAttackHit attacker p then
      let res := resolveAttack attackerId attacker rest
      ((pid, hitTransform attacker p) :: res.1,
       Out.playerHealthChanged pid (applyDamage p (effectiveDamage attacker p)).health :: res.2.1,
       some (res.2.2.getD pid))
    else
      let res := resolveAttack attackerId attacker rest
      ((pid, p) :: res.1, res.2.1, res.2.2)

/-- Tail of the playerAttack handler: after the hit-resolution loop, run
checkGameEnd on the updated player map; a truthy winner (JS `if (winner)`;
the empty string, though impossible for socket ids, would be falsy) finishes
the game and broadcasts gameEnded, and gameUpdate always closes the event. -/
def finishAttack (room : Room) (resPlayers : List (String × Player))
    (evs : List Out) : Room × List Out :=
  match checkGameEnd resPlayers with
  | some w =>
    if w = "" then ({ room with players := resPlayers }, evs ++ [Out.gameUpdate])
    else
      ({ room with
         players := resPlayers
         gameState := GameState.finished
         winner := some w },
       evs ++ [Out.gameEnded w, Out.gameUpdate])
  | none => ({ room with players := resPlayers }, evs ++ [Out.gameUpdate])

/-- The playerAttack socket handler of server.js.  Dropped silently unless the
room is in progress, the attacker exists and is alive, and at least
attackCooldown ms elapsed since the attacker's previous attack (with ℕ
timestamps, `now - last < 500` truncates exactly like the JS comparison,
which is also false-gated for clock regressions).  On success: mark the
attacker attacking, resolve hits, broadcast, and finish via finishAttack.
The 300 ms isAttacking reset is a deferred event (Event.attackClear). -/
def playerAttack (currentTime : ℕ) (socketId : String) (room : Room) : Room × List Out :=
  if room.gameState ≠ GameState.inProgress then (room, []) else
  match lookupA socketId room.players with
  | none => (room, [])
  | some attacker =>
    if attacker.isAlive = false then (room, []) else
    if currentTime - attacker.lastAttackTime < GAME_CONFIG.attackCooldown then (room, []) else
    let attacker1 := { attacker with isAttacking := true, lastAttackTime := currentTime }
    let players0 := setA socketId attacker1 room.players
    let res := resolveAttack socketId attacker1 players0
    finishAttack room res.1 (res.2.1 ++ [Out.playerAttacked socketId res.2.2])

/-- Effect application shared by the pickupItem handler branches: weapons are
auto-equipped (attackDamage = base + attack bonus, attackRange overridden when
weaponInfo carries a truthy range), shields replace defense, consumables apply
heal (clamped to maxHealth, with a health broadcast) and speed boost (the
multiplier is assigned and a reset-to-1.0 closure is scheduled after
duration || 10000 ms).  Returns the updated player, the updated pending
speed-reset schedule and the broadcasts, in source order. -/
def applyItemEffects (now : ℕ) (pid : String) (player : Player)
    (resets : List (ℕ × String)) (item : Item) :
    Player × List (ℕ × String) × List Out :=
  if item.type = "weapon" then
    let p := { player with
               equippedWeapon := some item
               attackDamage := GAME_CONFIG.attackDamage + item.properties.attack }
    let p := match item.weaponInfo with
      | some wi => if wi.range ≠ 0 then { p with attackRange := wi.range } else p
      | none => p
    (p, resets, [Out.itemEquipped pid item])
  else if item.type = "shield" then
    ({ player with equippedShield := some item, defense := item.properties.defense },
     resets, [Out.itemEquipped pid item])
  else if item.type = "consumable" then
    let healed := if item.properties.heal ≠ 0 then
        let h := min player.maxHealth (player.health + item.properties.heal)
        ({ player with health := h }, [Out.playerHealthChanged pid h])
      else (player, ([] : List Out))
    if item.properties.speedBoost ≠ 0 then
      ({ healed.1 with moveSpeedMultiplier := item.properties.speedBoost },
       resets ++ [(now + (if item.properties.duration = 0 then 10000
                          else item.properties.duration), pid)],
       healed.2)
    else (healed.1, resets, healed.2)
  else (player, resets, [])

/-- The pickupItem socket handler: silently dropped unless the item id is on
the ground, the requesting player exists and is alive, and the Euclidean
distance from player to item is at most 45; on success the item leaves the
ground mapping, its effects apply, and itemPickedUp / gameUpdate broadcast. -/
def pickupItem (now : ℕ) (socketId itemId : String) (room : Room) : Room × List Out :=
  match lookupA itemId room.droppedItems with
  | none => (room, [])
  | some item =>
    match lookupA socketId room.players with
    | none => (room, [])
    | some player =>
      if player.isAlive = false then (room, []) else
      if distSq player.position item.position ≤ 45 * 45 then
        let eff := applyItemEffects now socketId player room.pendingSpeedResets item
        ({ room with
           droppedItems := eraseA itemId room.droppedItems
           players := setA socketId eff.1 room.players
           pendingSpeedResets := eff.2.1 },
         eff.2.2 ++ [Out.itemPickedUp socketId itemId, Out.gameUpdate])
      else (room, [])

/-- checkForAutoPickup item loop: every ground item within distance 50 of the
moving player is deleted from the ground mapping; weapons are equipped with
the same stat updates as manual pickup (plus itemEquipped / itemPickedUp
broadcasts), non-weapon items are removed with no effect, and a gameUpdate
broadcast follows each pickup. -/
def autoPickupLoop (pid : String) (player : Player) :
    List (String × Item) → Player × List (String × Item) × List Out
  | [] => (player, [], [])
  | (itemId, item) :: rest =>
    if distSq player.position item.position ≤ 50 * 50 then
      let player1 :=
        if item.type = "weapon" then
          let p := { player with
                     equippedWeapon := some item
                     attackDamage := GAME_CONFIG.attackDamage + item.properties.attack }
          match item.weaponInfo with
          | some wi => if wi.range ≠ 0 then { p with attackRange := wi.range } else p
          | none => p
        else player
      let evs := (if item.type = "weapon" then
                    [Out.itemEquipped pid item, Out.itemPickedUp pid itemId]
                  else []) ++ [Out.gameUpdate]
      let res := autoPickupLoop pid player1 rest
      (res.1, res.2.1, evs ++ res.2.2)
    else
      let res := autoPickupLoop pid player rest
      (res.1, (itemId, item) :: res.2.1, res.2.2)

/-- checkForAutoPickup of server.js (invoked from the playerMove handler). -/
def checkForAutoPickup (pid : String) (room : Room) : Room × List Out :=
  match lookupA pid room.players with
  | none => (room, [])
  | some player =>
    if player.isAlive = false then (room, []) else
    let res := autoPickupLoop pid player room.droppedItems
    ({ room with players := setA pid res.1 room.players, droppedItems := res.2.1 },
     res.2.2)

/-- The per-player part of the playerMove handler: trust the client-reported
position and velocity, set isJumping, update facing from the velocity sign,
and clamp x back into [playerWidth/2, canvasWidth - playerWidth/2].  The
handler itself (playerMove below) gates on the room being in progress and the
mover being alive, runs auto pickup, and broadcasts. -/
def movePlayer (player : Player) (pos vel : Pos) : Player :=
  let p1 := { player with
              position := pos
              velocity := vel
              isJumping := !player.isGrounded }
  let p2 := if vel.x > 0 then { p1 with facingDirection := Dir.right }
            else if vel.x < 0 then { p1 with facingDirection := Dir.left }
            else p1
  let clampedX :=
    if p2.position.x < GAME_CONFIG.playerWidth / 2 then GAME_CONFIG.playerWidth / 2
    else if p2.position.x > GAME_CONFIG.canvasWidth - GAME_CONFIG.playerWidth / 2 then
      GAME_CONFIG.canvasWidth - GAME_CONFIG.playerWidth / 2
    else p2.position.x
  { p2 with position := { p2.position with x := clampedX } }

def playerMove (socketId : String) (pos vel : Pos) (room : Room) : Room × List Out :=
  if room.gameState ≠ GameState.inProgress then (room, []) else
  match lookupA socketId room.players with
  | none => (room, [])
  | some player =>
    if player.isAlive = false then (room, []) else
    let room1 := { room with
                   players := setA socketId (movePlayer player pos vel) room.players }
    let auto := checkForAutoPickup socketId room1
    (auto.1, auto.2 ++ [Out.playerMoved socketId, Out.gameUpdate])

/-- The joinRoom handler, room side (the registry resolves the room id and
surfaces roomNotFound): rejects with roomFull at capacity, otherwise inserts
a fresh player at the index-determined spawn and, once capacity is reached,
moves to READY (the 2 s auto-start closure is the deferred Event.autoStart). -/
def joinRoom (socketId nm : String) (room : Room) : Room × List Out :=
  if room.maxPlayers ≤ room.currentPlayers then (room, [Out.roomFull]) else
  let player := createPlayer socketId nm room.players.length
  let room1 := { room with
                 players := setA socketId player room.players
                 currentPlayers := room.currentPlayers + 1 }
  if room1.currentPlayers = room1.maxPlayers then
    ({ room1 with gameState := GameState.ready },
     [Out.playerJoined socketId, Out.gameStateChanged GameState.ready])
  else (room1, [Out.playerJoined socketId])

/-- The itemDropped socket handler: unconditionally stores the item under its
id in the room's ground mapping and broadcasts. -/
def itemDropped (item : Item) (room : Room) : Room × List Out :=
  ({ room with droppedItems := setA item.id item room.droppedItems },
   [Out.itemDroppedEv item, Out.gameUpdate])

/-- The equipItem socket handler: explicit equip of a ground item into a named
slot; only matching slot/type pairs take effect (weapon equip here sets
damage but not range), and the item then leaves the ground mapping. -/
def equipItem (socketId itemId slot : String) (room : Room) : Room × List Out :=
  match lookupA itemId room.droppedItems with
  | none => (room, [])
  | some item =>
    match lookupA socketId room.players with
    | none => (room, [])
    | some player =>
      if player.isAlive = false then (room, []) else
      if slot = "weapon" ∧ item.type = "weapon" then
        ({ room with
           players := setA socketId
             { player with
               equippedWeapon := some item
               attackDamage := GAME_CONFIG.attackDamage + item.properties.attack }
             room.players,
           droppedItems := eraseA itemId room.droppedItems },
         [Out.itemEquipped socketId item, Out.gameUpdate])
      else if slot = "shield" ∧ item.type = "shield" then
        ({ room with
           players := setA socketId
             { player with
                 equippedShield := some item
                 defense := item.properties.defense }
             room.players
           droppedItems := eraseA itemId room.droppedItems },
         [Out.itemEquipped socketId item, Out.gameUpdate])
      else (room, [])

/-- The playerReady handler: with a full room still in READY, start at once. -/
def playerReady (socketId : String) (room : Room) : Room × List Out :=
  if (lookupA socketId room.players).isSome then
    if room.currentPlayers = room.maxPlayers ∧ room.gameState = GameState.ready then
      ({ room with gameState := GameState.inProgress }, [Out.gameStarted, Out.gameUpdate])
    else (room, [])
  else (room, [])

/-- Room-level part of handlePlayerDisconnect (leave-room and transport
disconnect share it): remove the player, and with the room still occupied
and a match in progress, finish immediately with the first remaining player
as forfeit winner.  Registry deletion of an emptied room is handled by
handlePlayerDisconnect below. -/
def leaveRoom (pid : String) (room : Room) : Room × List Out :=
  if (lookupA pid room.players).isSome then
    let room1 := { room with
                   players := eraseA pid room.players
                   currentPlayers := room.currentPlayers - 1 }
    let evs := [Out.playerLeft pid, Out.playerDisconnected pid]
    if room1.currentPlayers = 0 then (room1, evs)
    else if room1.gameState = GameState.inProgress then
      let remaining := (room1.players.map Prod.fst).head?
      ({ room1 with gameState := GameState.finished, winner := remaining },
       evs ++ [Out.gameEnded (remaining.getD "")])
    else (room1, evs)
  else (room, [])

/-- The consumable speed-reset closure firing: only a scheduled (deadline,
player) entry may fire; the closure re-checks that the player still exists
before writing moveSpeedMultiplier = 1.0. -/
def speedResetFire (deadline : ℕ) (pid : String) (room : Room) : Room :=
  if (deadline, pid) ∈ room.pendingSpeedResets then
    let room1 := { room with
                   pendingSpeedResets := room.pendingSpeedResets.erase (deadline, pid) }
    match lookupA pid room1.players with
    | some p =>
      { room1 with players := setA pid { p with moveSpeedMultiplier := 1 } room1.players }
    | none => room1
  else room

/-- The 300 ms attack-animation reset closure: clear isAttacking if the
attacker still exists. -/
def attackClearFire (pid : String) (room : Room) : Room :=
  match lookupA pid room.players with
  | some p => { room with players := setA pid { p with isAttacking := false } room.players }
  | none => room

/-- The 2 s auto-start closure scheduled when the room fills: it assigns
in_progress without re-checking the current state, exactly as the source
closure does. -/
def autoStartFire (room : Room) : Room :=
  { room with gameState := GameState.inProgress }

/-- Inbound events of one room's serialized event loop: socket events plus the
deferred setTimeout closures re-entering the loop. -/
inductive Event
  | join (socketId nm : String)
  | move (socketId : String) (pos vel : Pos)
  | attack (time : ℕ) (socketId : String)
  | ready (socketId : String)
  | drop (item : Item)
  | pickup (time : ℕ) (socketId itemId : String)
  | equip (socketId itemId slot : String)
  | leave (socketId : String)
  | autoStart
  | speedReset (deadline : ℕ) (socketId : String)
  | attackClear (socketId : String)
deriving DecidableEq, Repr

/-- One step of the room's event loop. -/
def roomStep (e : Event) (room : Room) : Room × List Out :=
  match e with
  | Event.join sid nm => joinRoom sid nm room
  | Event.move sid pos vel => playerMove sid pos vel room
  | Event.attack t sid => playerAttack t sid room
  | Event.ready sid => playerReady sid room
  | Event.drop item => itemDropped item room
  | Event.pickup t sid itemId => pickupItem t sid itemId room
  | Event.equip sid itemId slot => equipItem sid itemId slot room
  | Event.leave sid => leaveRoom sid room
  | Event.autoStart => (autoStartFire room, [])
  | Event.speedReset dl sid => (speedResetFire dl sid room, [])
  | Event.attackClear sid => (attackClearFire sid room, [])

/-- Run a sequence of events through the room's event loop. -/
def run (es : List Event) (room : Room) : Room :=
  es.foldl (fun r e => (roomStep e r).1) room

/-- findPlayerRoom of server.js: first room (registry iteration order) whose
player map contains the connection id. -/
def findPlayerRoom (playerId : String) : List (String × Room) → Option Room
  | [] => none
  | (_, r) :: rest =>
    if (lookupA playerId r.players).isSome then some r
    else findPlayerRoom playerId rest

/-- handlePlayerDisconnect of server.js, acting on the registry: remove the
player from their room; delete the room from the registry when its player
count reaches zero; otherwise, if a match was in progress, finish it at once
with the first remaining player as forfeit winner. -/
def handlePlayerDisconnect (playerId : String) (rooms : List (String × Room)) :
    List (String × Room) × List Out :=
  match findPlayerRoom playerId rooms with
  | none => (rooms, [])
  | some room =>
    let room1 := { room with
                   players := eraseA playerId room.players
                   currentPlayers := room.currentPlayers - 1 }
    let evs := [Out.playerLeft playerId, Out.playerDisconnected playerId]
    if room1.currentPlayers = 0 then
      (eraseA room1.id rooms, evs)
    else if room1.gameState = GameState.inProgress then
      let remaining := (room1.players.map Prod.fst).head?
      let room2 := { room1 with gameState := GameState.finished, winner := remaining }
      (setA room2.id room2 rooms, evs ++ [Out.gameEnded (remaining.getD "")])
    else (setA room1.id room1 rooms, evs)

/- Embedding of src/utils/gameLogic.ts (the GameLogic class used by
src/app/api/socket/route.ts), parameterized by its GameConfig. -/
namespace GameLogic

/-- GameConfig of src/types/game.ts. -/
structure GameConfig where
  canvasWidth : ℤ
  canvasHeight : ℤ
  playerWidth : ℤ
  playerHeight : ℤ
  gravity : ℚ
  jumpForce : ℚ
  moveSpeed : ℚ
  attackRange : ℤ
  attackDamage : ℕ
  attackCooldown : ℕ
deriving DecidableEq, Repr

/-- AttackHitbox of src/types/game.ts (also used for the target's bounding
rectangle). -/
structure Rect where
  x : ℤ
  y : ℤ
  width : ℤ
  height : ℤ
deriving DecidableEq, Repr

/-- GameLogic.checkCollision: strict axis-aligned rectangle overlap. -/
def checkCollision (r1 r2 : Rect) : Bool :=
  decide (r1.x < r2.x + r2.width ∧ r1.x + r1.width > r2.x ∧
          r1.y < r2.y + r2.height ∧ r1.y + r1.height > r2.y)

/-- GameLogic.getAttackHitbox: a rectangle of width config.attackRange and
height config.playerHeight placed in front of the player according to the
facing direction. -/
def getAttackHitbox (cfg : GameConfig) (p : Player) : Rect :=
  let hitboxWidth := cfg.attackRange
  let hitboxHeight := cfg.playerHeight
  let hitboxX := if p.facingDirection = Dir.right then p.position.x + cfg.playerWidth / 2
                 else p.position.x - hitboxWidth - cfg.playerWidth / 2
  { x := hitboxX, y := p.position.y, width := hitboxWidth, height := hitboxHeight }

/-- GameLogic.checkAttackHit: false unless the attacker is attacking and the
target alive; otherwise the directional attack hitbox must overlap the
target's character-sized bounding rectangle. -/
def checkAttackHit (cfg : GameConfig) (attacker target : Player) : Bool :=
  if !attacker.isAttacking || !target.isAlive then false
  else
    checkCollision (getAttackHitbox cfg attacker)
      { x := target.position.x - cfg.playerWidth / 2
        y := target.position.y
        width := cfg.playerWidth
        height := cfg.playerHeight }

/-- GameLogic.canPlayerAttack: alive and at least attackCooldown ms since the
last attack. -/
def canPlayerAttack (cfg : GameConfig) (p : Player) (currentTime : ℕ) : Bool :=
  p.isAlive && decide (cfg.attackCooldown ≤ currentTime - p.lastAttackTime)

/-- The GAME_CONFIG instance of src/app/api/socket/route.ts. -/
def ROUTE_CONFIG : GameConfig :=
  { canvasWidth := 800, canvasHeight := 600, playerWidth := 40, playerHeight := 60
    gravity := 0.8, jumpForce := 15, moveSpeed := 5
    attackRange := 60, attackDamage := 10, attackCooldown := 500 }

end GameLogic

/-- Modelled from the spec's words for the hit test (claim C7 / spec 4.2), to
be compared with the code: true iff the attacker is attacking, the target is
alive, and the attacker's directional reach rectangle — width the attack
range, anchored at the attacker's front edge on the facing side, standard
character height — overlaps the target's standard-sized bounding rectangle
centered on the target's position. -/
def checkHitSpec (cfg : GameLogic.GameConfig) (attacker target : Player) : Bool :=
  let reach : GameLogic.Rect :=
    { x := if attacker.facingDirection = Dir.right then
             attacker.position.x + cfg.playerWidth / 2
           else attacker.position.x - cfg.playerWidth / 2 - cfg.attackRange
      y := attacker.position.y - cfg.playerHeight / 2
      width := cfg.attackRange
      height := cfg.playerHeight }
  let targetBox : GameLogic.Rect :=
    { x := target.position.x - cfg.playerWidth / 2
      y := target.position.y - cfg.playerHeight / 2
      width := cfg.playerWidth
      height := cfg.playerHeight }
  attacker.isAttacking && target.isAlive && GameLogic.checkCollision reach targetBox

/-! Generic facts about the association-list embedding of JS objects. -/

theorem lookupA_setA_self {α : Type} (k : String) (v : α) (l : List (String × α)) :
    lookupA k (setA k v l) = some v := by
  induction l with
  | nil => simp [setA, lookupA]
  | cons kv rest ih =>
    obtain ⟨k', v'⟩ := kv
    by_cases h : k' = k
    · simp [setA, h, lookupA]
    · simp [setA, h, lookupA, ih]

theorem lookupA_setA_ne {α : Type} {k' k : String} (h : k' ≠ k) (v : α)
    (l : List (String × α)) : lookupA k (setA k' v l) = lookupA k l := by
  induction l with
  | nil => simp [setA, lookupA, h]
  | cons kv rest ih =>
    obtain ⟨k0, v0⟩ := kv
    by_cases h0 : k0 = k'
    · subst h0
      simp [setA, lookupA, h]
    · simp [setA, h0, lookupA, ih]

theorem mem_setA {α : Type} {k : String} {v : α} {l : List (String × α)}
    {x : String × α} (hx : x ∈ setA k v l) : x = (k, v) ∨ x ∈ l := by
  induction l with
  | nil => simpa [setA] using hx
  | cons kv rest ih =>
    obtain ⟨k0, v0⟩ := kv
    by_cases h0 : k0 = k
    · simp [setA, h0] at hx
      rcases hx with h | h
      · exact Or.inl (by simp [h])
      · exact Or.inr (List.mem_cons_of_mem _ h)
    · simp [setA, h0] at hx
      rcases hx with h | h
      · exact Or.inr (by simp [h])
      · rcases ih h with h1 | h1
        · exact Or.inl h1
        · exact Or.inr (List.mem_cons_of_mem _ h1)

theorem mem_eraseA {α : Type} {k : String} {l : List (String × α)}
    {x : String × α} (hx : x ∈ eraseA k l) : x ∈ l := by
  induction l with
  | nil => simp [eraseA] at hx
  | cons kv rest ih =>
    obtain ⟨k0, v0⟩ := kv
    by_cases h0 : k0 = k
    · simp [eraseA, h0] at hx
      exact List.mem_cons_of_mem _ hx
    · simp [eraseA, h0] at hx
      rcases hx with h | h
      · exact by simp [h]
      · exact List.mem_cons_of_mem _ (ih h)

theorem lookupA_mem {α : Type} {k : String} {v : α} {l : List (String × α)}
    (h : lookupA k l = some v) : (k, v) ∈ l := by
  induction l with
  | nil => simp [lookupA] at h
  | cons kv rest ih =>
    obtain ⟨k0, v0⟩ := kv
    by_cases h0 : k0 = k
    · simp [lookupA, h0] at h
      simp [h0, h]
    · simp [lookupA, h0] at h
      exact List.mem_cons_of_mem _ (ih h)

theorem lookupA_eraseA_none {α : Type} {k : String} {l : List (String × α)}
    (h : lookupA k l = none) (k' : String) : lookupA k (eraseA k' l) = none := by
  induction l with
  | nil => simp [eraseA, lookupA]
  | cons kv rest ih =>
    obtain ⟨k0, v0⟩ := kv
    by_cases h0 : k0 = k
    · simp [lookupA, h0] at h
    · simp [lookupA, h0] at h
      by_cases h1 : k0 = k'
      · simpa [eraseA, h1] using h
      · simp [eraseA, h1, lookupA, h0, ih h]

theorem lookupA_none_of_not_mem {α : Type} {k : String} {l : List (String × α)}
    (h : k ∉ l.map Prod.fst) : lookupA k l = none := by
  induction l with
  | nil => simp [lookupA]
  | cons kv rest ih =>
    obtain ⟨k0, v0⟩ := kv
    simp only [List.map_cons, List.mem_cons] at h
    push_neg at h
    simp [lookupA, Ne.symm h.1, ih h.2]

theorem lookupA_eraseA_self {α : Type} {k : String} {l : List (String × α)}
    (hnd : (l.map Prod.fst).Nodup) : lookupA k (eraseA k l) = none := by
  induction l with
  | nil => simp [eraseA, lookupA]
  | cons kv rest ih =>
    obtain ⟨k0, v0⟩ := kv
    simp only [List.map_cons, List.nodup_cons] at hnd
    by_cases h0 : k0 = k
    · subst h0
      simpa [eraseA] using lookupA_none_of_not_mem hnd.1
    · simp [eraseA, h0, lookupA, ih hnd.2]

theorem lookupA_eraseA_ne {α : Type} {k' k : String} (h : k' ≠ k)
    (l : List (String × α)) : lookupA k (eraseA k' l) = lookupA k l := by
  induction l with
  | nil => simp [eraseA]
  | cons kv rest ih =>
    obtain ⟨k0, v0⟩ := kv
    by_cases h0 : k0 = k'
    · subst h0
      have hk : k0 ≠ k := h
      simp [eraseA, lookupA, hk]
    · simp [eraseA, h0, lookupA, ih]

theorem eraseA_length {α : Type} {k : String} {l : List (String × α)}
    (h : (lookupA k l).isSome) : (eraseA k l).length + 1 = l.length := by
  induction l with
  | nil => simp [lookupA] at h
  | cons kv rest ih =>
    obtain ⟨k0, v0⟩ := kv
    by_cases h0 : k0 = k
    · simp [eraseA, h0]
    · simp only [lookupA, h0, if_false] at h
      simp [eraseA, h0, ih h]

theorem setA_map_fst {α : Type} {k : String} {l : List (String × α)}
    (h : (lookupA k l).isSome) (v : α) :
    (setA k v l).map Prod.fst = l.map Prod.fst := by
  induction l with
  | nil => simp [lookupA] at h
  | cons kv rest ih =>
    obtain ⟨k0, v0⟩ := kv
    by_cases h0 : k0 = k
    · simp [setA, h0]
    · simp only [lookupA, h0, if_false] at h
      simp [setA, h0, ih h]

theorem forall_setA {α : Type} {P : String × α → Prop} {k : String} {v : α}
    {l : List (String × α)} (hv : P (k, v)) (hl : ∀ kp ∈ l, P kp) :
    ∀ kp ∈ setA k v l, P kp := by
  intro kp hkp
  rcases mem_setA hkp with h | h
  · exact h ▸ hv
  · exact hl kp h

theorem forall_eraseA {α : Type} {P : String × α → Prop} {k : String}
    {l : List (String × α)} (hl : ∀ kp ∈ l, P kp) :
    ∀ kp ∈ eraseA k l, P kp :=
  fun kp hkp => hl kp (mem_eraseA hkp)

/-! Health/liveness invariant (claim C1): health within [0, maxHealth] —
the lower bound is structural, health being a natural produced only by
truncated subtraction and min — and the alive flag equal to health > 0. -/

def playerOK (p : Player) : Prop :=
  p.health ≤ p.maxHealth ∧ (p.isAlive = true ↔ 0 < p.health)

instance (p : Player) : Decidable (playerOK p) := by
  unfold playerOK
  infer_instance

def roomOK (room : Room) : Prop := ∀ kp ∈ room.players, playerOK kp.2

instance (room : Room) : Decidable (roomOK room) := by
  unfold roomOK
  infer_instance

theorem playerOK_applyDamage {p : Player} (h : playerOK p) (d : ℕ) :
    playerOK (applyDamage p d) := by
  unfold playerOK applyDamage at *
  refine ⟨le_trans (Nat.sub_le _ _) h.1, by simp⟩

theorem playerOK_hitTransform {p : Player} (h : playerOK p) (a : Player) :
    playerOK (hitTransform a p) := by
  have := playerOK_applyDamage h (effectiveDamage a p)
  unfold playerOK hitTransform at *
  exact this

theorem resolveAttack_OK {aid : String} {a : Player} {l : List (String × Player)}
    (hl : ∀ kp ∈ l, playerOK kp.2) :
    ∀ kp ∈ (resolveAttack aid a l).1, playerOK kp.2 := by
  induction l with
  | nil => simp [resolveAttack]
  | cons kv rest ih =>
    obtain ⟨pid, p⟩ := kv
    have hp : playerOK p := hl (pid, p) (by simp)
    have hrest : ∀ kp ∈ rest, playerOK kp.2 :=
      fun kp hkp => hl kp (List.mem_cons_of_mem _ hkp)
    intro kp hkp
    by_cases hc : pid ≠ aid ∧ p.isAlive ∧ checkAttackHit a p
    · simp only [resolveAttack, if_pos hc] at hkp
      rcases List.mem_cons.mp hkp with h | h
      · subst h
        exact playerOK_hitTransform hp a
      · exact ih hrest _ h
    · simp only [resolveAttack, if_neg hc] at hkp
      rcases List.mem_cons.mp hkp with h | h
      · subst h
        exact hp
      · exact ih hrest _ h

theorem playerOK_applyItemEffects {p : Player} (h : playerOK p)
    (halive : p.isAlive = true) (now : ℕ) (pid : String)
    (rs : List (ℕ × String)) (item : Item) :
    playerOK (applyItemEffects now pid p rs item).1 := by
  have hpos : 0 < p.health := h.2.mp halive
  have hgt : 0 < min p.maxHealth (p.health + item.properties.heal) :=
    lt_min (lt_of_lt_of_le hpos h.1) (lt_of_lt_of_le hpos (Nat.le_add_right _ _))
  by_cases hw : item.type = "weapon"
  · cases hwi : item.weaponInfo with
    | none =>
      simp [applyItemEffects, hw, hwi]
      exact ⟨h.1, h.2⟩
    | some wi =>
      by_cases hr : wi.range = 0
      · simp [applyItemEffects, hw, hwi, hr]
        exact ⟨h.1, h.2⟩
      · simp [applyItemEffects, hw, hwi, hr]
        exact ⟨h.1, h.2⟩
  · by_cases hs : item.type = "shield"
    · simp [applyItemEffects, hw, hs]
      exact ⟨h.1, h.2⟩
    · by_cases hc : item.type = "consumable"
      · by_cases hheal : item.properties.heal = 0
        · by_cases hb : item.properties.speedBoost = 0
          · simp [applyItemEffects, hw, hs, hc, hheal, hb]
            exact ⟨h.1, h.2⟩
          · simp [applyItemEffects, hw, hs, hc, hheal, hb]
            exact ⟨h.1, h.2⟩
        · by_cases hb : item.properties.speedBoost = 0
          · simp [applyItemEffects, hw, hs, hc, hheal, hb]
            exact ⟨min_le_left _ _, by simp [halive, hgt]⟩
          · simp [applyItemEffects, hw, hs, hc, hheal, hb]
            exact ⟨min_le_left _ _, by simp [halive, hgt]⟩
      · simp [applyItemEffects, hw, hs, hc]
        exact ⟨h.1, h.2⟩

theorem autoPickupLoop_OK {p : Player} (h : playerOK p) (pid : String)
    (l : List (String × Item)) : playerOK (autoPickupLoop pid p l).1 := by
  induction l generalizing p with
  | nil => exact h
  | cons kv rest ih =>
    obtain ⟨itemId, item⟩ := kv
    unfold autoPickupLoop
    dsimp only
    split_ifs with hd hw
    · cases hwi : item.weaponInfo with
      | none =>
        simp only [hwi]
        exact ih ⟨h.1, h.2⟩
      | some wi =>
        simp only [hwi]
        split_ifs with hr
        · exact ih ⟨h.1, h.2⟩
        · exact ih ⟨h.1, h.2⟩
    · exact ih h
    · exact ih h

theorem playerOK_createPlayer (sid nm : String) (i : ℕ) :
    playerOK (createPlayer sid nm i) := by
  unfold playerOK createPlayer
  norm_num

theorem playerOK_movePlayer {p : Player} (h : playerOK p) (pos vel : Pos) :
    playerOK (movePlayer p pos vel) := by
  unfold movePlayer
  split_ifs <;> exact ⟨h.1, h.2⟩

theorem joinRoom_OK {room : Room} (h : roomOK room) (sid nm : String) :
    roomOK (joinRoom sid nm room).1 := by
  unfold joinRoom
  try dsimp only
  split_ifs
  · exact h
  · exact forall_setA (playerOK_createPlayer sid nm room.players.length) h
  · exact forall_setA (playerOK_createPlayer sid nm room.players.length) h

theorem checkForAutoPickup_OK {room : Room} (h : roomOK room) (pid : String) :
    roomOK (checkForAutoPickup pid room).1 := by
  unfold checkForAutoPickup
  cases hl : lookupA pid room.players with
  | none => exact h
  | some player =>
    have hp : playerOK player := h (pid, player) (lookupA_mem hl)
    simp only [hl]
    try dsimp only
    split_ifs with ha
    · exact h
    · exact forall_setA (autoPickupLoop_OK hp pid room.droppedItems) h

theorem playerMove_OK {room : Room} (h : roomOK room) (sid : String)
    (pos vel : Pos) : roomOK (playerMove sid pos vel room).1 := by
  unfold playerMove
  split_ifs with hg
  · exact h
  · cases hl : lookupA sid room.players with
    | none => exact h
    | some player =>
      have hp : playerOK player := h (sid, player) (lookupA_mem hl)
      simp only [hl]
      try dsimp only
      split_ifs with ha
      · exact h
      · have hroomOK : roomOK { room with
            players := setA sid (movePlayer player pos vel) room.players } :=
          forall_setA (playerOK_movePlayer hp pos vel) h
        exact checkForAutoPickup_OK hroomOK sid

theorem finishAttack_OK {room : Room} {resPlayers : List (String × Player)}
    (hres : ∀ kp ∈ resPlayers, playerOK kp.2) (evs : List Out) :
    roomOK (finishAttack room resPlayers evs).1 := by
  unfold finishAttack
  cases checkGameEnd resPlayers with
  | none => exact hres
  | some w =>
    try dsimp only
    split_ifs
    · exact hres
    · exact hres

theorem playerAttack_OK {room : Room} (h : roomOK room) (t : ℕ) (sid : String) :
    roomOK (playerAttack t sid room).1 := by
  unfold playerAttack
  split_ifs with hg
  · exact h
  · cases hl : lookupA sid room.players with
    | none => exact h
    | some attacker =>
      have hp : playerOK attacker := h (sid, attacker) (lookupA_mem hl)
      simp only [hl]
      try dsimp only
      split_ifs with ha hcd
      · exact h
      · exact h
      · have hOK : roomOK { room with
            players := setA sid
              { attacker with isAttacking := true, lastAttackTime := t } room.players } :=
          forall_setA ⟨hp.1, hp.2⟩ h
        have hres : ∀ kp ∈ (resolveAttack sid
            { attacker with isAttacking := true, lastAttackTime := t }
            (setA sid { attacker with isAttacking := true, lastAttackTime := t }
              room.players)).1, playerOK kp.2 := resolveAttack_OK hOK
        exact finishAttack_OK hres _

theorem pickupItem_OK {room : Room} (h : roomOK room) (now : ℕ)
    (sid itemId : String) : roomOK (pickupItem now sid itemId room).1 := by
  unfold pickupItem
  cases hi : lookupA itemId room.droppedItems with
  | none => exact h
  | some item =>
    simp only [hi]
    cases hl : lookupA sid room.players with
    | none => exact h
    | some player =>
      have hp : playerOK player := h (sid, player) (lookupA_mem hl)
      simp only [hl]
      try dsimp only
      split_ifs with ha hd
      · exact h
      · have halive : player.isAlive = true := by
          cases hb : player.isAlive
          · exact absurd hb ha
          · rfl
        exact forall_setA
          (playerOK_applyItemEffects hp halive now sid room.pendingSpeedResets item) h
      · exact h

theorem equipItem_OK {room : Room} (h : roomOK room) (sid itemId slot : String) :
    roomOK (equipItem sid itemId slot room).1 := by
  unfold equipItem
  cases hi : lookupA itemId room.droppedItems with
  | none => exact h
  | some item =>
    simp only [hi]
    cases hl : lookupA sid room.players with
    | none => exact h
    | some player =>
      have hp : playerOK player := h (sid, player) (lookupA_mem hl)
      simp only [hl]
      try dsimp only
      split_ifs
      · exact h
      · exact forall_setA ⟨hp.1, hp.2⟩ h
      · exact forall_setA ⟨hp.1, hp.2⟩ h
      · exact h

theorem leaveRoom_OK {room : Room} (h : roomOK room) (pid : String) :
    roomOK (leaveRoom pid room).1 := by
  unfold leaveRoom
  try dsimp only
  split_ifs <;> first | exact h | exact forall_eraseA h

theorem playerReady_OK {room : Room} (h : roomOK room) (sid : String) :
    roomOK (playerReady sid room).1 := by
  unfold playerReady
  try dsimp only
  split_ifs <;> exact h

theorem itemDropped_OK {room : Room} (h : roomOK room) (item : Item) :
    roomOK (itemDropped item room).1 := h

theorem speedResetFire_OK {room : Room} (h : roomOK room) (dl : ℕ) (pid : String) :
    roomOK (speedResetFire dl pid room) := by
  unfold speedResetFire
  try dsimp only
  split_ifs with hm
  · cases hl : lookupA pid room.players with
    | none => simp only [hl]; exact h
    | some p =>
      simp only [hl]
      exact forall_setA ⟨(h (pid, p) (lookupA_mem hl)).1, (h (pid, p) (lookupA_mem hl)).2⟩ h
  · exact h

theorem attackClearFire_OK {room : Room} (h : roomOK room) (pid : String) :
    roomOK (attackClearFire pid room) := by
  unfold attackClearFire
  cases hl : lookupA pid room.players with
  | none => exact h
  | some p =>
    exact forall_setA ⟨(h (pid, p) (lookupA_mem hl)).1, (h (pid, p) (lookupA_mem hl)).2⟩ h

theorem roomStep_OK {room : Room} (h : roomOK room) (e : Event) :
    roomOK (roomStep e room).1 := by
  cases e with
  | join sid nm => exact joinRoom_OK h sid nm
  | move sid pos vel => exact playerMove_OK h sid pos vel
  | attack t sid => exact playerAttack_OK h t sid
  | ready sid => exact playerReady_OK h sid
  | drop item => exact itemDropped_OK h item
  | pickup t sid itemId => exact pickupItem_OK h t sid itemId
  | equip sid itemId slot => exact equipItem_OK h sid itemId slot
  | leave sid => exact leaveRoom_OK h sid
  | autoStart => exact h
  | speedReset dl sid => exact speedResetFire_OK h dl sid
  | attackClear sid => exact attackClearFire_OK h sid

theorem run_OK {room : Room} (h : roomOK room) (es : List Event) :
    roomOK (run es room) := by
  induction es generalizing room with
  | nil => exact h
  | cons e rest ih => exact ih (roomStep_OK h e)

/-! Concrete sample data for witnesses and counterexamples. -/

def alice0 : Player := { createPlayer "alice" "Alice" 0 with position := { x := 740, y := 520 } }

def bob0 : Player := { createPlayer "bob" "Bob" 1 with position := { x := 780, y := 520 } }

def sampleRoom : Room :=
  { id := "ROOM01"
    players := [("alice", alice0), ("bob", bob0)]
    gameState := GameState.inProgress
    maxPlayers := 2
    currentPlayers := 2
    droppedItems := []
    winner := none
    pendingSpeedResets := [] }

/-- A heal consumable placed next to alice0. -/
def healPotion : Item :=
  { id := "h1"
    type := "consumable"
    name := "Potion"
    position := { x := 740, y := 520 }
    properties := { attack := 0, defense := 0, heal := 30, speedBoost := 0, duration := 0 }
    weaponInfo := none }

/-- Claim C1: under any sequence of room events (damage application through
attacks, consumable-heal pickups, and every other handler of the event loop),
every player's health stays within [0, maxHealth] — the lower bound being
structural in the ℕ embedding, exactly as `Math.max(0, ...)` enforces it —
and the alive flag always equals health > 0. -/
theorem c1_health_alive_invariant (es : List Event) (room : Room) (h : roomOK room) :
    ∀ kp ∈ (run es room).players,
      kp.2.health ≤ kp.2.maxHealth ∧ (kp.2.isAlive = true ↔ 0 < kp.2.health) :=
  run_OK h es

/-- Witness for C1 at a concrete room and event trace (an attack that lands
plus a heal pickup). -/
theorem c1_health_alive_invariant_witness :
    roomOK sampleRoom ∧
    ∀ kp ∈ (run [Event.attack 1000 "alice", Event.drop healPotion,
                  Event.pickup 2000 "alice" "h1"] sampleRoom).players,
      kp.2.health ≤ kp.2.maxHealth ∧ (kp.2.isAlive = true ↔ 0 < kp.2.health) :=
  ⟨by decide, c1_health_alive_invariant _ _ (by decide)⟩

/-- Claim C3: an attack attempted strictly less than the 500 ms cooldown
after the attacker's previous successful attack (which set lastAttackTime) is
dropped whole: the room is returned unchanged and no broadcast at all — in
particular no playerAttacked and no playerHealthChanged — is produced. -/
theorem c3_cooldown_no_effect (room : Room) (now : ℕ) (aid : String) (a : Player)
    (ha : lookupA aid room.players = some a)
    (hcd : now < a.lastAttackTime + GAME_CONFIG.attackCooldown) :
    playerAttack now aid room = (room, []) := by
  unfold playerAttack
  split_ifs with hg
  · rfl
  · rw [ha]
    dsimp only
    split_ifs with halive hlt
    · rfl
    · rfl
    · have hcd' : now < a.lastAttackTime + 500 := hcd
      have hgoal : now - a.lastAttackTime < 500 := by omega
      exact absurd hgoal hlt

/-- A copy of alice0 whose previous attack happened at time 800. -/
def aliceRecent : Player := { alice0 with lastAttackTime := 800 }

def sampleRoomRecent : Room :=
  { sampleRoom with players := [("alice", aliceRecent), ("bob", bob0)] }

/-- Witness for C3: at time 1000, only 200 ms after aliceRecent's previous
attack, the attempt has no effect. -/
theorem c3_cooldown_no_effect_witness :
    lookupA "alice" sampleRoomRecent.players = some aliceRecent ∧
    1000 < aliceRecent.lastAttackTime + GAME_CONFIG.attackCooldown ∧
    playerAttack 1000 "alice" sampleRoomRecent = (sampleRoomRecent, []) :=
  ⟨by decide, by decide,
   c3_cooldown_no_effect sampleRoomRecent 1000 "alice" aliceRecent (by decide) (by decide)⟩

/-- Claim C8: a manual pickup request changes the room state iff the item id
is on the ground, the requesting player exists and is alive, and the player
is within Euclidean distance 45 of the item (the squared comparison is the
exact form of `Math.sqrt(d2) <= 45`); otherwise it is a silent no-op:
the room is returned unchanged (total function, no exception) and nothing is
broadcast. -/
theorem c8_pickup_gating (now : ℕ) (pid itemId : String) (room : Room) :
    ((∃ item p, lookupA itemId room.droppedItems = some item ∧
        lookupA pid room.players = some p ∧ p.isAlive = true ∧
        distSq p.position item.position ≤ 45 * 45) →
      (pickupItem now pid itemId room).1 ≠ room) ∧
    ((¬ ∃ item p, lookupA itemId room.droppedItems = some item ∧
        lookupA pid room.players = some p ∧ p.isAlive = true ∧
        distSq p.position item.position ≤ 45 * 45) →
      pickupItem now pid itemId room = (room, [])) := by
  constructor
  · rintro ⟨item, p, hi, hp, halive, hd⟩
    unfold pickupItem
    rw [hi, hp]
    dsimp only
    rw [if_neg (by simp [halive] : ¬ p.isAlive = false), if_pos hd]
    intro heq
    have hitems := congrArg Room.droppedItems heq
    dsimp only at hitems
    have hlen := eraseA_length (l := room.droppedItems) (k := itemId) (by simp [hi])
    rw [hitems] at hlen
    omega
  · intro hno
    unfold pickupItem
    cases hi : lookupA itemId room.droppedItems with
    | none => rfl
    | some item =>
      cases hp : lookupA pid room.players with
      | none => rfl
      | some p =>
        dsimp only
        by_cases ha : p.isAlive = false
        · rw [if_pos ha]
        · rw [if_neg ha]
          by_cases hdist : distSq p.position item.position ≤ 45 * 45
          · exfalso
            apply hno
            refine ⟨item, p, hi, hp, ?_, hdist⟩
            cases hb : p.isAlive
            · exact absurd hb ha
            · rfl
          · rw [if_neg hdist]

/-- Witness for C8: picking up the ground potion next to alice0 changes the
room; requesting an absent item id is a silent no-op. -/
theorem c8_pickup_gating_witness :
    ((pickupItem 0 "alice" "h1"
        { sampleRoom with droppedItems := [("h1", healPotion)] }).1 ≠
      { sampleRoom with droppedItems := [("h1", healPotion)] }) ∧
    pickupItem 0 "alice" "nope" sampleRoom = (sampleRoom, []) :=
  ⟨(c8_pickup_gating 0 "alice" "h1" _).1
     ⟨healPotion, alice0, by decide, by decide, by decide, by decide⟩,
   (c8_pickup_gating 0 "alice" "nope" _).2
     (by rintro ⟨item, p, hi, h2⟩; simp [sampleRoom, lookupA] at hi)⟩

/-! Facts about a successfully gated attack (claims C2 and C5). -/

theorem finishAttack_players (room : Room) (resPlayers : List (String × Player))
    (evs : List Out) : (finishAttack room resPlayers evs).1.players = resPlayers := by
  unfold finishAttack
  cases checkGameEnd resPlayers with
  | none => rfl
  | some w =>
    dsimp only
    split_ifs <;> rfl

theorem finishAttack_events (room : Room) (resPlayers : List (String × Player))
    (evs : List Out) {ev : Out} (h : ev ∈ evs) :
    ev ∈ (finishAttack room resPlayers evs).2 := by
  unfold finishAttack
  cases checkGameEnd resPlayers with
  | none => exact List.mem_append_left _ h
  | some w =>
    dsimp only
    split_ifs
    · exact List.mem_append_left _ h
    · exact List.mem_append_left _ h

/-- Unfolding of playerAttack when all gates pass. -/
theorem playerAttack_success (room : Room) (now : ℕ) (aid : String) (a : Player)
    (hg : room.gameState = GameState.inProgress)
    (ha : lookupA aid room.players = some a)
    (haalive : a.isAlive = true)
    (hcd : a.lastAttackTime + GAME_CONFIG.attackCooldown ≤ now) :
    playerAttack now aid room =
      finishAttack room
        (resolveAttack aid { a with isAttacking := true, lastAttackTime := now }
          (setA aid { a with isAttacking := true, lastAttackTime := now } room.players)).1
        ((resolveAttack aid { a with isAttacking := true, lastAttackTime := now }
            (setA aid { a with isAttacking := true, lastAttackTime := now } room.players)).2.1 ++
         [Out.playerAttacked aid
           (resolveAttack aid { a with isAttacking := true, lastAttackTime := now }
             (setA aid { a with isAttacking := true, lastAttackTime := now }
               room.players)).2.2]) := by
  unfold playerAttack
  rw [if_neg (by simp [hg])]
  rw [ha]
  dsimp only
  rw [if_neg (by simp [haalive])]
  have hcd500 : a.lastAttackTime + 500 ≤ now := hcd
  rw [if_neg (by omega : ¬ now - a.lastAttackTime < GAME_CONFIG.attackCooldown)]

/-- In the hit-resolution pass, a target distinct from the attacker, alive and
hit by the attacker, ends as hitTransform of itself in the player map, and
the corresponding health broadcast is emitted. -/
theorem resolveAttack_hit_lookup {aid tid : String} {a t : Player}
    {l : List (String × Player)}
    (hnd : (l.map Prod.fst).Nodup)
    (ht : lookupA tid l = some t) (hne : tid ≠ aid)
    (halive : t.isAlive = true) (hhit : checkAttackHit a t = true) :
    lookupA tid (resolveAttack aid a l).1 = some (hitTransform a t) ∧
    Out.playerHealthChanged tid (applyDamage t (effectiveDamage a t)).health
      ∈ (resolveAttack aid a l).2.1 := by
  induction l with
  | nil => simp [lookupA] at ht
  | cons kv rest ih =>
    obtain ⟨pid, p⟩ := kv
    simp only [List.map_cons, List.nodup_cons] at hnd
    by_cases hpid : pid = tid
    · subst hpid
      have hpt : p = t := by simpa [lookupA] using ht
      subst hpt
      have hc : pid ≠ aid ∧ p.isAlive = true ∧ checkAttackHit a p = true :=
        ⟨hne, halive, hhit⟩
      constructor
      · simp only [resolveAttack, if_pos hc]
        simp [lookupA]
      · simp only [resolveAttack, if_pos hc]
        exact List.mem_cons_self _ _
    · have ht' : lookupA tid rest = some t := by
        simpa [lookupA, hpid] using ht
      have ihr := ih hnd.2 ht'
      by_cases hc : pid ≠ aid ∧ p.isAlive = true ∧ checkAttackHit a p = true
      · constructor
        · simp only [resolveAttack, if_pos hc, lookupA, hpid, if_false]
          exact ihr.1
        · simp only [resolveAttack, if_pos hc]
          exact List.mem_cons_of_mem _ ihr.2
      · constructor
        · simp only [resolveAttack, if_neg hc, lookupA, hpid, if_false]
          exact ihr.1
        · simp only [resolveAttack, if_neg hc]
          exact ihr.2

/-- Claim C2: an attack resolved while the room is IN_PROGRESS against an
alive target in range reduces the target's health by exactly
max(1, attackDamage - defense), clamped at 0 (Nat subtraction), recomputes
the alive flag, and broadcasts playerHealthChanged with the new value.  With
the base attackDamage of 10 the loss is max(1, 10 - defense). -/
theorem c2_attack_damage (room : Room) (now : ℕ) (aid tid : String) (a t : Player)
    (hnd : (room.players.map Prod.fst).Nodup)
    (hg : room.gameState = GameState.inProgress)
    (ha : lookupA aid room.players = some a)
    (haalive : a.isAlive = true)
    (hcd : a.lastAttackTime + GAME_CONFIG.attackCooldown ≤ now)
    (hAD : a.attackDamage ≠ 0)
    (ht : lookupA tid room.players = some t)
    (hne : tid ≠ aid)
    (htalive : t.isAlive = true)
    (hhit : checkAttackHit a t = true) :
    ∃ t', lookupA tid (playerAttack now aid room).1.players = some t' ∧
      t'.health = t.health - max 1 (a.attackDamage - t.defense) ∧
      (t'.isAlive = true ↔ 0 < t.health - max 1 (a.attackDamage - t.defense)) ∧
      Out.playerHealthChanged tid (t.health - max 1 (a.attackDamage - t.defense))
        ∈ (playerAttack now aid room).2 := by
  rw [playerAttack_success room now aid a hg ha haalive hcd]
  have hndq : ((setA aid { a with isAttacking := true, lastAttackTime := now }
      room.players).map Prod.fst).Nodup := by
    rw [setA_map_fst (by simp [ha])]
    exact hnd
  have htq : lookupA tid (setA aid { a with isAttacking := true, lastAttackTime := now }
      room.players) = some t := by
    rw [lookupA_setA_ne (Ne.symm hne)]
    exact ht
  have hres := resolveAttack_hit_lookup
    (a := { a with isAttacking := true, lastAttackTime := now })
    hndq htq hne htalive hhit
  refine ⟨hitTransform { a with isAttacking := true, lastAttackTime := now } t, ?_, ?_, ?_, ?_⟩
  · rw [finishAttack_players]
    exact hres.1
  · simp [hitTransform, applyDamage, effectiveDamage, hAD]
  · simp [hitTransform, applyDamage, effectiveDamage, hAD]
  · have hmem := hres.2
    have : Out.playerHealthChanged tid (applyDamage t (effectiveDamage
        { a with isAttacking := true, lastAttackTime := now } t)).health =
        Out.playerHealthChanged tid (t.health - max 1 (a.attackDamage - t.defense)) := by
      simp [applyDamage, effectiveDamage, hAD]
    rw [this] at hmem
    exact finishAttack_events _ _ _ (List.mem_append_left _ hmem)

/-- Witness for C2: alice0 (attackDamage 10) hits bob0 (defense 0), whose
health must drop from 100 to 90 with a matching broadcast. -/
theorem c2_attack_damage_witness :
    ∃ t', lookupA "bob" (playerAttack 1000 "alice" sampleRoom).1.players = some t' ∧
      t'.health = bob0.health - max 1 (alice0.attackDamage - bob0.defense) ∧
      (t'.isAlive = true ↔ 0 < bob0.health - max 1 (alice0.attackDamage - bob0.defense)) ∧
      Out.playerHealthChanged "bob" (bob0.health - max 1 (alice0.attackDamage - bob0.defense))
        ∈ (playerAttack 1000 "alice" sampleRoom).2 :=
  c2_attack_damage sampleRoom 1000 "alice" "bob" alice0 bob0
    (by decide) (by decide) (by decide) (by decide) (by decide) (by decide)
    (by decide) (by decide) (by decide) (by decide)

/-- Claim C5: checkGameEnd maps an all-dead player set to the draw sentinel
'draw' (never an attacker id), and an attack resolution pass that leaves
exactly one player alive finishes the room with that player recorded as
winner.  (An attacker survives its own pass — the handler never targets the
attacker — so the zero-alive case is settled at the checkGameEnd level, where
the draw sentinel is wired to the FINISHED transition by finishAttack.) -/
theorem c5_draw_and_winner :
    (∀ ps : List (String × Player),
        (ps.map Prod.snd).filter (fun p => p.isAlive) = [] →
        checkGameEnd ps = some "draw") ∧
    (∀ room now aid a p,
        room.gameState = GameState.inProgress →
        lookupA aid room.players = some a →
        a.isAlive = true →
        a.lastAttackTime + GAME_CONFIG.attackCooldown ≤ now →
        ((playerAttack now aid room).1.players.map Prod.snd).filter
          (fun q => q.isAlive) = [p] →
        p.id ≠ "" →
        (playerAttack now aid room).1.gameState = GameState.finished ∧
        (playerAttack now aid room).1.winner = some p.id) := by
  constructor
  · intro ps h
    unfold checkGameEnd
    rw [h]
  · intro room now aid a p hg ha halive hcd hal hid
    rw [playerAttack_success room now aid a hg ha halive hcd] at hal ⊢
    rw [finishAttack_players] at hal
    have hend : checkGameEnd (resolveAttack aid
        { a with isAttacking := true, lastAttackTime := now }
        (setA aid { a with isAttacking := true, lastAttackTime := now }
          room.players)).1 = some p.id := by
      unfold checkGameEnd
      rw [hal]
    unfold finishAttack
    rw [hend]
    dsimp only
    rw [if_neg hid]
    exact ⟨rfl, rfl⟩

/-- A copy of bob0 with only 5 health left. -/
def bobWeak : Player := { bob0 with health := 5 }

def sampleRoomWeak : Room :=
  { sampleRoom with players := [("alice", alice0), ("bob", bobWeak)] }

/-- Witness for C5: an empty alive set yields the draw sentinel, and an attack
that kills bobWeak finishes the room with alice as winner. -/
theorem c5_draw_and_winner_witness :
    checkGameEnd [] = some "draw" ∧
    (playerAttack 1000 "alice" sampleRoomWeak).1.gameState = GameState.finished ∧
    (playerAttack 1000 "alice" sampleRoomWeak).1.winner = some "alice" := by
  refine ⟨c5_draw_and_winner.1 [] (by decide), ?_⟩
  have h := c5_draw_and_winner.2 sampleRoomWeak 1000 "alice" alice0
    { alice0 with isAttacking := true, lastAttackTime := 1000 }
    (by decide) (by decide) (by decide) (by decide) (by decide) (by decide)
  exact h

theorem findPlayerRoom_isSome {pid : String} {rooms : List (String × Room)}
    {room : Room} (h : findPlayerRoom pid rooms = some room) :
    (lookupA pid room.players).isSome := by
  induction rooms with
  | nil => simp [findPlayerRoom] at h
  | cons kr rest ih =>
    obtain ⟨k, r⟩ := kr
    by_cases hs : (lookupA pid r.players).isSome
    · simp only [findPlayerRoom, hs, if_true, Option.some.injEq] at h
      rw [← h]
      exact hs
    · simp only [findPlayerRoom, hs, if_false] at h
      exact ih h

/-- Claim C6: a disconnect (or leave) of a player found in a room removes the
player; if the room's player count reaches zero the room is deleted from the
registry, and otherwise, if the match was in progress, the room finishes
immediately — no grace period, it is the same synchronous handler — with the
sole remaining player recorded as winner. -/
theorem c6_forfeit_and_teardown (rooms : List (String × Room)) (pid : String)
    (room : Room)
    (hnd : (rooms.map Prod.fst).Nodup)
    (hfind : findPlayerRoom pid rooms = some room)
    (hcount : room.currentPlayers = room.players.length) :
    (eraseA pid room.players = [] →
      lookupA room.id (handlePlayerDisconnect pid rooms).1 = none) ∧
    (∀ qid q, room.gameState = GameState.inProgress →
      eraseA pid room.players = [(qid, q)] →
      ∃ room2, lookupA room.id (handlePlayerDisconnect pid rooms).1 = some room2 ∧
        room2.gameState = GameState.finished ∧ room2.winner = some qid) := by
  have hsome : (lookupA pid room.players).isSome := findPlayerRoom_isSome hfind
  have hlen := eraseA_length (k := pid) hsome
  constructor
  · intro hzero
    unfold handlePlayerDisconnect
    rw [hfind]
    dsimp only
    rw [hzero] at hlen
    rw [if_pos (by simp at hlen; omega : room.currentPlayers - 1 = 0)]
    exact lookupA_eraseA_self hnd
  · intro qid q hprog hone
    unfold handlePlayerDisconnect
    rw [hfind]
    dsimp only
    rw [hone] at hlen
    rw [if_neg (by simp at hlen; omega : ¬ room.currentPlayers - 1 = 0)]
    rw [if_pos hprog]
    rw [hone]
    exact ⟨_, lookupA_setA_self _ _ _, rfl, rfl⟩

/-- sampleRoom with only alice left in it. -/
def soloRoom : Room :=
  { sampleRoom with players := [("alice", alice0)], currentPlayers := 1 }

/-- Witness for C6: disconnecting alice from a sole-occupancy room deletes the
room from the registry; disconnecting alice from the in-progress two-player
room finishes it at once with bob as winner. -/
theorem c6_forfeit_and_teardown_witness :
    lookupA "ROOM01" (handlePlayerDisconnect "alice" [("ROOM01", soloRoom)]).1 = none ∧
    ∃ room2,
      lookupA "ROOM01" (handlePlayerDisconnect "alice" [("ROOM01", sampleRoom)]).1 =
        some room2 ∧
      room2.gameState = GameState.finished ∧ room2.winner = some "bob" :=
  ⟨(c6_forfeit_and_teardown [("ROOM01", soloRoom)] "alice" soloRoom
      (by decide) (by decide) (by decide)).1 (by decide),
   (c6_forfeit_and_teardown [("ROOM01", sampleRoom)] "alice" sampleRoom
      (by decide) (by decide) (by decide)).2 "bob" bob0 (by decide) (by decide)⟩

/-! Ground-item id lifecycle (claim C4). -/

theorem autoPickupLoop_items_absent {X pid : String} {p : Player}
    {l : List (String × Item)} (h : lookupA X l = none) :
    lookupA X (autoPickupLoop pid p l).2.1 = none := by
  induction l generalizing p with
  | nil => simp [autoPickupLoop, lookupA]
  | cons kv rest ih =>
    obtain ⟨itemId, item⟩ := kv
    by_cases hk : itemId = X
    · simp [lookupA, hk] at h
    · simp only [lookupA, hk, if_false] at h
      unfold autoPickupLoop
      dsimp only
      split_ifs with hd hw
      · cases hwi : item.weaponInfo with
        | none => simp only [hwi]; exact ih h
        | some wi =>
          simp only [hwi]
          split_ifs with hr
          · exact ih h
          · exact ih h
      · exact ih h
      · simp only [lookupA, hk, if_false]
        exact ih h

theorem finishAttack_droppedItems (room : Room) (resPlayers : List (String × Player))
    (evs : List Out) : (finishAttack room resPlayers evs).1.droppedItems =
      room.droppedItems := by
  unfold finishAttack
  cases checkGameEnd resPlayers with
  | none => rfl
  | some w =>
    dsimp only
    split_ifs <;> rfl

/-- Requesting pickup of an item id that is not on the ground is a no-op. -/
theorem pickupItem_absent (now : ℕ) (pid X : String) (room : Room)
    (h : lookupA X room.droppedItems = none) :
    pickupItem now pid X room = (room, []) := by
  unfold pickupItem
  rw [h]

/-- An event that is not an itemDropped of the given id. -/
def noDropOf (X : String) (e : Event) : Prop :=
  ∀ it, e = Event.drop it → it.id ≠ X

/-- No handler but itemDropped ever inserts a ground-item id: an id absent
from the ground mapping stays absent across any event that does not re-drop
that id. -/
theorem step_items_absent {X : String} {room : Room} {e : Event}
    (h : lookupA X room.droppedItems = none) (he : noDropOf X e) :
    lookupA X ((roomStep e room).1).droppedItems = none := by
  cases e with
  | join sid nm =>
    simp only [roomStep]
    unfold joinRoom
    dsimp only
    split_ifs <;> exact h
  | move sid pos vel =>
    simp only [roomStep]
    unfold playerMove
    split_ifs with hg
    · exact h
    · cases hl : lookupA sid room.players with
      | none => exact h
      | some player =>
        simp only [hl]
        try dsimp only
        split_ifs with ha
        · exact h
        · unfold checkForAutoPickup
          rw [lookupA_setA_self]
          try dsimp only
          split_ifs with ha2
          · exact h
          · exact autoPickupLoop_items_absent h
  | attack t sid =>
    simp only [roomStep]
    unfold playerAttack
    split_ifs with hg
    · exact h
    · cases hl : lookupA sid room.players with
      | none => exact h
      | some attacker =>
        simp only [hl]
        try dsimp only
        split_ifs with ha hcd
        · exact h
        · exact h
        · rw [finishAttack_droppedItems]
          exact h
  | ready sid =>
    simp only [roomStep]
    unfold playerReady
    try dsimp only
    split_ifs <;> exact h
  | drop item =>
    simp only [roomStep]
    unfold itemDropped
    try dsimp only
    rw [lookupA_setA_ne (he item rfl)]
    exact h
  | pickup t sid itemId =>
    simp only [roomStep]
    unfold pickupItem
    cases hi : lookupA itemId room.droppedItems with
    | none => exact h
    | some item =>
      simp only [hi]
      cases hl : lookupA sid room.players with
      | none => exact h
      | some player =>
        try dsimp only
        split_ifs with ha hd
        · exact h
        · exact lookupA_eraseA_none h itemId
        · exact h
  | equip sid itemId slot =>
    simp only [roomStep]
    unfold equipItem
    cases hi : lookupA itemId room.droppedItems with
    | none => exact h
    | some item =>
      simp only [hi]
      cases hl : lookupA sid room.players with
      | none => exact h
      | some player =>
        try dsimp only
        split_ifs
        · exact h
        · exact lookupA_eraseA_none h itemId
        · exact lookupA_eraseA_none h itemId
        · exact h
  | leave sid =>
    simp only [roomStep]
    unfold leaveRoom
    try dsimp only
    split_ifs <;> exact h
  | autoStart => exact h
  | speedReset dl sid =>
    simp only [roomStep]
    unfold speedResetFire
    try dsimp only
    split_ifs with hm
    · cases hl : lookupA sid room.players with
      | none => simp only [hl]; exact h
      | some p => simp only [hl]; exact h
    · exact h
  | attackClear sid =>
    simp only [roomStep]
    unfold attackClearFire
    cases hl : lookupA sid room.players with
    | none => exact h
    | some p => simp only [hl]; exact h

theorem run_items_absent {X : String} {room : Room} {es : List Event}
    (h : lookupA X room.droppedItems = none)
    (hes : ∀ e ∈ es, noDropOf X e) :
    lookupA X (run es room).droppedItems = none := by
  induction es generalizing room with
  | nil => exact h
  | cons e rest ih =>
    exact ih (step_items_absent h (hes e (by simp)))
      (fun e2 he2 => hes e2 (List.mem_cons_of_mem _ he2))

/-- Claim C4, amended: a manual pickup of a ground item id either removes it
from the ground mapping or leaves the room untouched; and once the id is
absent, as long as no later itemDropped event reuses it (item ids are meant
to be unique per spawn), it never reappears in the ground mapping and a later
pickup request for it is a complete no-op — it cannot affect a second player.
(The un-amended claim fails because itemDropped accepts arbitrary ids: see
the counterexample.) -/
theorem c4_item_id_lifecycle (X : String) (room : Room) (es : List Event)
    (hnd : (room.droppedItems.map Prod.fst).Nodup)
    (hes : ∀ e ∈ es, noDropOf X e) :
    (∀ now pid, lookupA X ((pickupItem now pid X room).1.droppedItems) = none ∨
       pickupItem now pid X room = (room, [])) ∧
    (lookupA X room.droppedItems = none →
      lookupA X (run es room).droppedItems = none ∧
      ∀ now pid, roomStep (Event.pickup now pid X) (run es room) = (run es room, [])) := by
  constructor
  · intro now pid
    unfold pickupItem
    cases hi : lookupA X room.droppedItems with
    | none => exact Or.inr rfl
    | some item =>
      cases hl : lookupA pid room.players with
      | none => exact Or.inr rfl
      | some player =>
        try dsimp only
        by_cases ha : player.isAlive = false
        · rw [if_pos ha]
          exact Or.inr rfl
        · rw [if_neg ha]
          by_cases hd : distSq player.position item.position ≤ 45 * 45
          · rw [if_pos hd]
            exact Or.inl (lookupA_eraseA_self hnd)
          · rw [if_neg hd]
            exact Or.inr rfl
  · intro habs
    have hrun := run_items_absent habs hes
    exact ⟨hrun, fun now pid => pickupItem_absent now pid X (run es room) hrun⟩

/-- A weapon with id w1 next to alice0. -/
def sword1 : Item :=
  { id := "w1"
    type := "weapon"
    name := "IronSword"
    position := { x := 740, y := 520 }
    properties := { attack := 25, defense := 0, heal := 0, speedBoost := 0, duration := 0 }
    weaponInfo := some { range := 70 } }

/-- A second drop reusing id w1, next to bob0. -/
def sword2 : Item := { sword1 with name := "IronSwordAgain", position := { x := 780, y := 520 } }

/-- Counterexample to C4 as stated: after alice picks up ground item id w1
(which is then absent from the mapping), a later itemDropped event reusing
id w1 lets bob pick the id up too — the same ground-item id affects a second
player. -/
theorem c4_counterexample :
    lookupA "w1" (run [Event.drop sword1, Event.pickup 0 "alice" "w1"]
      sampleRoom).droppedItems = none ∧
    (lookupA "alice" (run [Event.drop sword1, Event.pickup 0 "alice" "w1"]
      sampleRoom).players).map (fun p => p.equippedWeapon) = some (some sword1) ∧
    (lookupA "bob" (run [Event.drop sword1, Event.pickup 0 "alice" "w1",
      Event.drop sword2, Event.pickup 0 "bob" "w1"]
      sampleRoom).players).map (fun p => p.equippedWeapon) = some (some sword2) := by
  refine ⟨by decide, by decide, by decide⟩

/-- sampleRoom with sword1 lying on the ground. -/
def roomWithSword : Room := { sampleRoom with droppedItems := [("w1", sword1)] }

/-- Witness for the amended C4 at a concrete room, trace and pickup. -/
theorem c4_item_id_lifecycle_witness :
    (lookupA "w1" ((pickupItem 0 "alice" "w1" roomWithSword).1.droppedItems) = none ∨
      pickupItem 0 "alice" "w1" roomWithSword = (roomWithSword, [])) ∧
    (lookupA "w1" (run [Event.drop healPotion] sampleRoom).droppedItems = none ∧
     ∀ now pid, roomStep (Event.pickup now pid "w1") (run [Event.drop healPotion] sampleRoom) =
       (run [Event.drop healPotion] sampleRoom, [])) := by
  constructor
  · exact (c4_item_id_lifecycle "w1" roomWithSword []
      (by decide) (by simp)).1 0 "alice"
  · exact (c4_item_id_lifecycle "w1" sampleRoom [Event.drop healPotion] (by decide)
      (by
        intro e he
        simp only [List.mem_singleton] at he
        subst he
        intro it hdrop
        cases hdrop
        decide)).2 (by decide)

/-! Consumable speed boosts (claim C9). -/

/-- Claim C9, amended: picking up a speed-boost consumable assigns (replaces,
rather than multiplies — from the default 1.0 the two coincide) the player's
moveSpeedMultiplier with the item's speedBoost value and appends a deferred
reset to exactly 1.0 scheduled after the item's duration (default 10000 ms);
the pending schedule is appended to, never overwritten, so an earlier pending
reset survives a later pickup (and can cut the later boost short — see the
counterexample), while any scheduled reset that fires with the player still
present sets the multiplier back to exactly 1.0. -/
theorem c9_speed_boost (now : ℕ) (pid itemId : String) (room : Room)
    (item : Item) (p : Player)
    (hi : lookupA itemId room.droppedItems = some item)
    (hp : lookupA pid room.players = some p)
    (halive : p.isAlive = true)
    (hd : distSq p.position item.position ≤ 45 * 45)
    (hc : item.type = "consumable")
    (hb : item.properties.speedBoost ≠ 0) :
    (∃ p2, lookupA pid (pickupItem now pid itemId room).1.players = some p2 ∧
      p2.moveSpeedMultiplier = item.properties.speedBoost) ∧
    (pickupItem now pid itemId room).1.pendingSpeedResets =
      room.pendingSpeedResets ++
        [(now + (if item.properties.duration = 0 then 10000
                 else item.properties.duration), pid)] ∧
    (∀ dl qid room2 q, (dl, qid) ∈ room2.pendingSpeedResets →
      lookupA qid room2.players = some q →
      ∃ q2, lookupA qid (speedResetFire dl qid room2).players = some q2 ∧
        q2.moveSpeedMultiplier = 1) := by
  refine ⟨?_, ?_, ?_⟩
  · unfold pickupItem
    rw [hi, hp]
    dsimp only
    rw [if_neg (by simp [halive] : ¬ p.isAlive = false), if_pos hd]
    refine ⟨(applyItemEffects now pid p room.pendingSpeedResets item).1,
      lookupA_setA_self _ _ _, ?_⟩
    by_cases hheal : item.properties.heal = 0 <;>
      simp [applyItemEffects, hc, hheal, hb]
  · unfold pickupItem
    rw [hi, hp]
    dsimp only
    rw [if_neg (by simp [halive] : ¬ p.isAlive = false), if_pos hd]
    by_cases hheal : item.properties.heal = 0 <;>
      simp [applyItemEffects, hc, hheal, hb]
  · intro dl qid room2 q hm hq
    unfold speedResetFire
    rw [if_pos hm]
    dsimp only
    rw [hq]
    exact ⟨_, lookupA_setA_self _ _ _, rfl⟩

/-- A speed-boost consumable (factor 2, default duration) next to alice0. -/
def boost1 : Item :=
  { id := "b1"
    type := "consumable"
    name := "Boots"
    position := { x := 740, y := 520 }
    properties := { attack := 0, defense := 0, heal := 0, speedBoost := 2, duration := 0 }
    weaponInfo := none }

/-- A second speed boost (factor 3), also next to alice0. -/
def boost2 : Item :=
  { boost1 with
    id := "b2"
    properties := { attack := 0, defense := 0, heal := 0, speedBoost := 3, duration := 0 } }

/-- Witness for C9 (amended) at a concrete pickup of boost1 by alice0. -/
theorem c9_speed_boost_witness :
    (∃ p2, lookupA "alice"
        (pickupItem 0 "alice" "b1"
          { sampleRoom with droppedItems := [("b1", boost1)] }).1.players = some p2 ∧
      p2.moveSpeedMultiplier = boost1.properties.speedBoost) ∧
    (pickupItem 0 "alice" "b1"
        { sampleRoom with droppedItems := [("b1", boost1)] }).1.pendingSpeedResets =
      sampleRoom.pendingSpeedResets ++
        [(0 + (if boost1.properties.duration = 0 then 10000
               else boost1.properties.duration), "alice")] ∧
    (∀ dl qid room2 q, (dl, qid) ∈ room2.pendingSpeedResets →
      lookupA qid room2.players = some q →
      ∃ q2, lookupA qid (speedResetFire dl qid room2).players = some q2 ∧
        q2.moveSpeedMultiplier = 1) :=
  c9_speed_boost 0 "alice" "b1" { sampleRoom with droppedItems := [("b1", boost1)] }
    boost1 alice0 (by decide) (by decide) (by decide) (by decide) (by decide) (by decide)

/-- Counterexample to C9 as stated: alice picks up boost1 (factor 2) at t=0,
then boost2 (factor 3) at t=5000.  The multiplier is assigned 3 (a multiply
would give 6), the pending reset list holds BOTH deadlines — the later pickup
does not overwrite the pending reset — and when the first, still-pending
reset fires at t=10000, the multiplier drops to 1.0 although the second
boost's duration runs to t=15000. -/
theorem c9_counterexample :
    ((lookupA "alice" (run [Event.drop boost1, Event.pickup 0 "alice" "b1",
        Event.drop boost2, Event.pickup 5000 "alice" "b2"] sampleRoom).players).map
      (fun p => p.moveSpeedMultiplier) = some 3) ∧
    (run [Event.drop boost1, Event.pickup 0 "alice" "b1", Event.drop boost2,
        Event.pickup 5000 "alice" "b2"] sampleRoom).pendingSpeedResets =
      [(10000, "alice"), (15000, "alice")] ∧
    ((lookupA "alice" (run [Event.drop boost1, Event.pickup 0 "alice" "b1",
        Event.drop boost2, Event.pickup 5000 "alice" "b2",
        Event.speedReset 10000 "alice"] sampleRoom).players).map
      (fun p => p.moveSpeedMultiplier) = some 1) := by
  refine ⟨by decide, by decide, by decide⟩

/-! Arena bounds (claim C10). -/

/-- The arena-bound invariant of the spec: x within
[playerWidth/2, canvasWidth - playerWidth/2]. -/
def inBoundsX (p : Player) : Prop :=
  GAME_CONFIG.playerWidth / 2 ≤ p.position.x ∧
  p.position.x ≤ GAME_CONFIG.canvasWidth - GAME_CONFIG.playerWidth / 2

instance (p : Player) : Decidable (inBoundsX p) := by
  unfold inBoundsX
  infer_instance

def roomInBoundsX (room : Room) : Prop := ∀ kp ∈ room.players, inBoundsX kp.2

instance (room : Room) : Decidable (roomInBoundsX room) := by
  unfold roomInBoundsX
  infer_instance

/-- Every event except playerAttack. -/
def nonAttack : Event → Prop
  | Event.attack _ _ => False
  | _ => True

instance (e : Event) : Decidable (nonAttack e) := by
  cases e <;> dsimp only [nonAttack] <;> infer_instance

theorem inBoundsX_createPlayer (sid nm : String) (i : ℕ) :
    inBoundsX (createPlayer sid nm i) := by
  unfold inBoundsX createPlayer
  dsimp only
  split_ifs <;> exact ⟨by decide, by decide⟩

theorem inBoundsX_movePlayer (p : Player) (pos vel : Pos) :
    inBoundsX (movePlayer p pos vel) := by
  unfold inBoundsX movePlayer
  dsimp only
  split_ifs <;> constructor <;> first | decide | omega

theorem autoPickupLoop_position (pid : String) (p : Player)
    (l : List (String × Item)) :
    (autoPickupLoop pid p l).1.position = p.position := by
  induction l generalizing p with
  | nil => rfl
  | cons kv rest ih =>
    obtain ⟨itemId, item⟩ := kv
    unfold autoPickupLoop
    dsimp only
    split_ifs with hd hw
    · cases hwi : item.weaponInfo with
      | none => simp only [hwi]; rw [ih]
      | some wi =>
        simp only [hwi]
        split_ifs with hr
        · rw [ih]
        · rw [ih]
    · exact ih p
    · exact ih p

theorem applyItemEffects_position (now : ℕ) (pid : String) (p : Player)
    (rs : List (ℕ × String)) (item : Item) :
    (applyItemEffects now pid p rs item).1.position = p.position := by
  by_cases hw : item.type = "weapon"
  · cases hwi : item.weaponInfo with
    | none => simp [applyItemEffects, hw, hwi]
    | some wi =>
      by_cases hr : wi.range = 0 <;> simp [applyItemEffects, hw, hwi, hr]
  · by_cases hs : item.type = "shield"
    · simp [applyItemEffects, hw, hs]
    · by_cases hc : item.type = "consumable"
      · by_cases hheal : item.properties.heal = 0 <;>
          by_cases hb : item.properties.speedBoost = 0 <;>
          simp [applyItemEffects, hw, hs, hc, hheal, hb]
      · simp [applyItemEffects, hw, hs, hc]

/-- Claim C10, amended: after every mutating room event EXCEPT an attack —
moves (the handler re-clamps the mover), joins (index spawns are inside),
pickups, drops, leaves and timer firings — every player's x stays within
[playerWidth/2, canvasWidth - playerWidth/2].  The attack handler applies its
knockback without re-clamping, so an attack can push the struck target out of
these bounds (see the counterexample), until that target's own next move
re-clamps it. -/
theorem c10_bounds_nonattack (e : Event) (room : Room) (hna : nonAttack e)
    (h : roomInBoundsX room) : roomInBoundsX ((roomStep e room).1) := by
  cases e with
  | join sid nm =>
    simp only [roomStep]
    unfold joinRoom
    try dsimp only
    split_ifs
    · exact h
    · exact forall_setA (inBoundsX_createPlayer sid nm room.players.length) h
    · exact forall_setA (inBoundsX_createPlayer sid nm room.players.length) h
  | move sid pos vel =>
    simp only [roomStep]
    unfold playerMove
    split_ifs with hg
    · exact h
    · cases hl : lookupA sid room.players with
      | none => exact h
      | some player =>
        simp only [hl]
        try dsimp only
        split_ifs with ha
        · exact h
        · unfold checkForAutoPickup
          rw [lookupA_setA_self]
          try dsimp only
          split_ifs with ha2
          · exact forall_setA (inBoundsX_movePlayer player pos vel) h
          · have hbase : ∀ kp ∈ setA sid (movePlayer player pos vel) room.players,
                inBoundsX kp.2 :=
              forall_setA (inBoundsX_movePlayer player pos vel) h
            have hloop : inBoundsX (autoPickupLoop sid (movePlayer player pos vel)
                room.droppedItems).1 := by
              unfold inBoundsX
              rw [autoPickupLoop_position]
              exact inBoundsX_movePlayer player pos vel
            exact forall_setA hloop hbase
  | attack t sid => exact hna.elim
  | ready sid =>
    simp only [roomStep]
    unfold playerReady
    try dsimp only
    split_ifs <;> exact h
  | drop item => exact h
  | pickup t sid itemId =>
    simp only [roomStep]
    unfold pickupItem
    cases hi : lookupA itemId room.droppedItems with
    | none => exact h
    | some item =>
      simp only [hi]
      cases hl : lookupA sid room.players with
      | none => exact h
      | some player =>
        have hp : inBoundsX player := h (sid, player) (lookupA_mem hl)
        try dsimp only
        split_ifs with ha hd
        · exact h
        · have heff : inBoundsX (applyItemEffects t sid player
              room.pendingSpeedResets item).1 := by
            unfold inBoundsX
            rw [applyItemEffects_position]
            exact hp
          exact forall_setA heff h
        · exact h
  | equip sid itemId slot =>
    simp only [roomStep]
    unfold equipItem
    cases hi : lookupA itemId room.droppedItems with
    | none => exact h
    | some item =>
      simp only [hi]
      cases hl : lookupA sid room.players with
      | none => exact h
      | some player =>
        have hp : inBoundsX player := h (sid, player) (lookupA_mem hl)
        try dsimp only
        split_ifs
        · exact h
        · exact forall_setA ⟨hp.1, hp.2⟩ h
        · exact forall_setA ⟨hp.1, hp.2⟩ h
        · exact h
  | leave sid =>
    simp only [roomStep]
    unfold leaveRoom
    try dsimp only
    split_ifs <;> first | exact h | exact forall_eraseA h
  | autoStart => exact h
  | speedReset dl sid =>
    simp only [roomStep]
    unfold speedResetFire
    try dsimp only
    split_ifs with hm
    · cases hl : lookupA sid room.players with
      | none => simp only [hl]; exact h
      | some p =>
        have hp : inBoundsX p := h (sid, p) (lookupA_mem hl)
        simp only [hl]
        exact forall_setA ⟨hp.1, hp.2⟩ h
    · exact h
  | attackClear sid =>
    simp only [roomStep]
    unfold attackClearFire
    cases hl : lookupA sid room.players with
    | none => exact h
    | some p =>
      have hp : inBoundsX p := h (sid, p) (lookupA_mem hl)
      simp only [hl]
      exact forall_setA ⟨hp.1, hp.2⟩ h

/-- Witness for the amended C10: a move reporting x = 900 is clamped back and
the whole room stays within bounds. -/
theorem c10_bounds_nonattack_witness :
    nonAttack (Event.move "alice" { x := 900, y := 520 } { x := 0, y := 0 }) ∧
    roomInBoundsX sampleRoom ∧
    roomInBoundsX ((roomStep (Event.move "alice" { x := 900, y := 520 }
      { x := 0, y := 0 }) sampleRoom).1) :=
  ⟨trivial, by decide,
   c10_bounds_nonattack (Event.move "alice" { x := 900, y := 520 } { x := 0, y := 0 })
     sampleRoom trivial (by decide)⟩

/-- Counterexample to C10 as stated: in sampleRoom every player is inside the
arena bounds, yet a single attack event knocks bob (at x = 780, the right
bound) to x = 800, outside [20, 780] — the attack handler applies knockback
with no re-clamp. -/
theorem c10_counterexample :
    roomInBoundsX sampleRoom ∧
    (lookupA "bob" (playerAttack 1000 "alice" sampleRoom).1.players).map
      (fun p => p.position.x) = some 800 ∧
    ¬ ((800 : ℤ) ≤ GAME_CONFIG.canvasWidth - GAME_CONFIG.playerWidth / 2) := by
  refine ⟨by decide, by decide, by decide⟩

/-! The hit test (claim C7).  The repository carries two hit tests with
different semantics: GameLogic.checkAttackHit (route.ts path) is the
directional one the spec describes, while the socket server's checkAttackHit
is an omnidirectional distance test with no isAttacking or liveness guard. -/

/-- Claim C7, amended: GameLogic.checkAttackHit is exactly the spec's
directional test — true iff the attacker is attacking, the target is alive,
and the front-anchored reach rectangle (width the configured attackRange,
standard character height) overlaps the target's character-sized bounding
rectangle centered on the target's position — and under it a target strictly
behind the attacker is never hit.  The socket server's checkAttackHit, by
contrast, is exactly the omnidirectional comparison
|dx| ≤ (attacker.attackRange || default) ∧ |dy| ≤ playerHeight, with no
facing, isAttacking or liveness condition. -/
theorem c7_hit_test (cfg : GameLogic.GameConfig) (a t : Player) :
    (GameLogic.checkAttackHit cfg a t = checkHitSpec cfg a t) ∧
    (a.facingDirection = Dir.right → t.position.x < a.position.x →
      GameLogic.checkAttackHit cfg a t = false) ∧
    (a.facingDirection = Dir.left → a.position.x < t.position.x →
      GameLogic.checkAttackHit cfg a t = false) ∧
    (checkAttackHit a t = true ↔
      |a.position.x - t.position.x| ≤
        (if a.attackRange = 0 then (GAME_CONFIG.attackRange : ℤ)
         else (a.attackRange : ℤ)) ∧
      |a.position.y - t.position.y| ≤ GAME_CONFIG.playerHeight) := by
  refine ⟨?_, ?_, ?_, ?_⟩
  · cases ha : a.isAttacking <;> cases htl : t.isAlive <;>
      simp [GameLogic.checkAttackHit, checkHitSpec, ha, htl,
        GameLogic.getAttackHitbox, GameLogic.checkCollision, decide_eq_decide]
    cases hf : a.facingDirection <;> simp [hf] <;>
      · rw [Bool.eq_iff_iff]
        simp only [Bool.and_eq_true, decide_eq_true_eq]
        omega
  · intro hf hx
    cases ha : a.isAttacking <;> cases htl : t.isAlive <;>
      simp [GameLogic.checkAttackHit, ha, htl,
        GameLogic.getAttackHitbox, GameLogic.checkCollision, hf]
    omega
  · intro hf hx
    cases ha : a.isAttacking <;> cases htl : t.isAlive <;>
      simp [GameLogic.checkAttackHit, ha, htl,
        GameLogic.getAttackHitbox, GameLogic.checkCollision, hf]
    omega
  · simp [checkAttackHit]

/-- An attacking player at (400, 300) facing right. -/
def gAttacker : Player :=
  { alice0 with position := { x := 400, y := 300 }, isAttacking := true }

/-- A live target 30px in front of gAttacker. -/
def gFront : Player := { bob0 with position := { x := 430, y := 300 } }

/-- A live target 40px behind gAttacker. -/
def gBehind : Player := { bob0 with position := { x := 360, y := 300 } }

/-- Witness for the amended C7 at concrete players and the route config. -/
theorem c7_hit_test_witness :
    (GameLogic.checkAttackHit GameLogic.ROUTE_CONFIG gAttacker gFront =
      checkHitSpec GameLogic.ROUTE_CONFIG gAttacker gFront) ∧
    GameLogic.checkAttackHit GameLogic.ROUTE_CONFIG gAttacker gBehind = false ∧
    (checkAttackHit gAttacker gFront = true ↔
      |gAttacker.position.x - gFront.position.x| ≤
        (if gAttacker.attackRange = 0 then (GAME_CONFIG.attackRange : ℤ)
         else (gAttacker.attackRange : ℤ)) ∧
      |gAttacker.position.y - gFront.position.y| ≤ GAME_CONFIG.playerHeight) :=
  ⟨(c7_hit_test GameLogic.ROUTE_CONFIG gAttacker gFront).1,
   (c7_hit_test GameLogic.ROUTE_CONFIG gAttacker gBehind).2.1 (by decide) (by decide),
   (c7_hit_test GameLogic.ROUTE_CONFIG gAttacker gFront).2.2.2⟩

/-- A copy of gAttacker that is NOT attacking. -/
def gIdle : Player := { gAttacker with isAttacking := false }

/-- Counterexample to C7 as stated: the socket server's checkAttackHit — a
source the claim cites — returns true for a live target strictly behind a
right-facing attacker who is not even attacking, contradicting both the
'iff attacker.isAttacking' part and 'a target behind the attacker is never
hit'. -/
theorem c7_counterexample :
    gIdle.facingDirection = Dir.right ∧
    gBehind.position.x < gIdle.position.x ∧
    gIdle.isAttacking = false ∧
    gBehind.isAlive = true ∧
    checkAttackHit gIdle gBehind = true := by
  refine ⟨by decide, by decide, by decide, by decide, by decide⟩

end StickerMan
